import Mathlib

/-!
Verification of the dense target-assignment, multi-task loss and decode
pipeline of the audio-visual temporal action detection model
(`libs/modeling/meta_archs.py`, `libs/modeling/losses.py`).

The Python tensor code is shallowly embedded over exact arithmetic:
float values are modelled by `ℚ` wherever the code only performs field
operations and comparisons, and by `ℝ` where transcendental functions
(`exp`, `log`, `sigmoid`) appear.  Vectorized tensor operations acting
pointwise across anchor points are embedded as per-point functions
mapped over lists; boolean-mask indexing becomes `maskSelect`.
-/

namespace AVTAD

/-- A temporal anchor point `(t, reg_min, reg_max, stride)`: one row of
the concatenated point table `concat_points` (columns 0,1,2,3). -/
structure Point where
  t : ℚ
  regMin : ℚ
  regMax : ℚ
  stride : ℚ
deriving DecidableEq

/-- A ground-truth segment `(start, stop)` in feature-grid units
(one row of `gt_segment`). -/
structure Seg where
  start : ℚ
  stop : ℚ
deriving DecidableEq

/-- `self.train_center_sample`, asserted to be `'radius'` or `'none'`;
the `radius` constructor carries `self.train_center_sample_radius`. -/
inductive CenterMode where
  | radius (r : ℚ) : CenterMode
  | off : CenterMode
deriving DecidableEq

/-- `left = concat_points[:, 0, None] - gt_segs[:, :, 0]` for one
(point, segment) pair. -/
def leftDist (p : Point) (g : Seg) : ℚ := p.t - g.start

/-- `right = gt_segs[:, :, 1] - concat_points[:, 0, None]` for one
(point, segment) pair. -/
def rightDist (p : Point) (g : Seg) : ℚ := g.stop - p.t

/-- `lens = gt_segment[:, 1] - gt_segment[:, 0]`: duration of one
ground-truth segment. -/
def segLen (g : Seg) : ℚ := g.stop - g.start

/-- `max_regress_distance = reg_targets.max(-1)[0]` for one
(point, segment) pair. -/
def maxRegressDistance (p : Point) (g : Seg) : ℚ :=
  max (leftDist p g) (rightDist p g)

/-- `inside_gt_seg_mask` for one (point, segment) pair.  Under
`'radius'` center sampling the point must fall strictly inside the
center-sampling window `[center - stride*radius, center + stride*radius]`
clipped to the segment bounds; under `'none'` it must be strictly inside
the segment (`reg_targets.min(-1)[0] > 0`). -/
def insideGtSeg (m : CenterMode) (p : Point) (g : Seg) : Bool :=
  match m with
  | CenterMode.radius r =>
      let c := (g.start + g.stop) / 2
      let tmin := c - p.stride * r
      let tmax := c + p.stride * r
      let cbLeft := p.t - max tmin g.start
      let cbRight := min tmax g.stop - p.t
      decide (0 < min cbLeft cbRight)
  | CenterMode.off =>
      decide (0 < min (leftDist p g) (rightDist p g))

/-- `inside_regress_range`: `max_regress_distance` must fall inside the
point's own `[reg_min, reg_max]` band. -/
def insideRegressRange (p : Point) (g : Seg) : Bool :=
  decide (p.regMin ≤ maxRegressDistance p g ∧ maxRegressDistance p g ≤ p.regMax)

/-- A (point, segment) pair surviving both `masked_fill_` steps on
`lens` (neither mask zero). -/
def qualifies (m : CenterMode) (p : Point) (g : Seg) : Bool :=
  insideGtSeg m p g && insideRegressRange p g

/-- One entry of the doubly-masked `lens` row of a point: the segment
duration, or `none` standing for `float('inf')` when a mask removed the
pair. -/
def maskedLen (m : CenterMode) (p : Point) (g : Seg) : Option ℚ :=
  if qualifies m p g then some (segLen g) else none

/-- The doubly-masked `lens` row of one point over all segments. -/
def maskedLens (m : CenterMode) (p : Point) (gts : List Seg) : List (Option ℚ) :=
  gts.map (maskedLen m p)

/-- Minimum of two masked lengths, with `none` acting as
`float('inf')`. -/
def optMin : Option ℚ → Option ℚ → Option ℚ
  | Option.none, b => b
  | Option.some x, Option.none => some x
  | Option.some x, Option.some y => some (min x y)

/-- `min_len = lens.min(dim=1)[0]` for one point: `none` models the
all-`inf` (unmatched) case. -/
def minLen (m : CenterMode) (p : Point) (gts : List Seg) : Option ℚ :=
  (maskedLens m p gts).foldr optMin none

/-- `min_len_inds = lens.min(dim=1)[1]` for one point: torch returns the
first index attaining the minimum (index 0 when the whole row is
`inf`). -/
def minLenIdx (m : CenterMode) (p : Point) (gts : List Seg) : ℕ :=
  (maskedLens m p gts).findIdx (fun o => decide (o = minLen m p gts))

/-- `cls_targets_v = gt_label_v[min_len_inds]` followed by
`masked_fill_(min_len==float('inf'), num_classes_verb)` for one point.
`numClasses` is the background sentinel (`self.num_classes_verb`, resp.
`self.num_classes_noun` for the noun copy of the same code). -/
def clsTarget (numClasses : ℕ) (m : CenterMode) (p : Point) (gts : List Seg)
    (labels : List ℕ) : ℕ :=
  if minLen m p gts = none then numClasses
  else labels.getD (minLenIdx m p gts) 0

/-- `reg_targets = reg_targets[range(num_pts), min_len_inds]` followed by
`reg_targets /= concat_points[:, 3, None]` for one point. -/
def regTargetOfPoint (m : CenterMode) (p : Point) (gts : List Seg) : ℚ × ℚ :=
  let g := gts.getD (minLenIdx m p gts) ⟨0, 0⟩
  (leftDist p g / p.stride, rightDist p g / p.stride)

/-- Vectorized `cls_targets_v` (resp. `cls_targets_n`) over the whole
point table. -/
def assignedClsTargets (numClasses : ℕ) (m : CenterMode) (pts : List Point)
    (gts : List Seg) (labels : List ℕ) : List ℕ :=
  pts.map (fun p => clsTarget numClasses m p gts labels)

/-- Vectorized stride-normalized regression targets over the whole point
table. -/
def assignedRegTargets (m : CenterMode) (pts : List Point) (gts : List Seg) :
    List (ℚ × ℚ) :=
  pts.map (fun p => regTargetOfPoint m p gts)

/-- `ioa_with_anchors`: intersection length between anchor
`[anchors_min, anchors_max]` and window `[box_min, box_max]`, divided by
the anchor length. -/
def ioa_with_anchors (anchorsMin anchorsMax boxMin boxMax : ℚ) : ℚ :=
  let lenAnchors := anchorsMax - anchorsMin
  let interLen := max (min anchorsMax boxMax - max anchorsMin boxMin) 0
  interLen / lenAnchors

/-- `np.max` over a nonempty array, as used on the per-segment `ioa`
scores; the `[]` case (on which `np.max` raises) is unreachable because
the caller early-returns when there are no ground-truth segments. -/
def npMax : List ℚ → ℚ
  | [] => 0
  | x :: xs => xs.foldl max x

/-- `gt_len_small = np.maximum(1, 0.1*gt_lens)` for one segment at one
resolution ratio. -/
def gtLenSmall (ratio : ℚ) (g : Seg) : ℚ :=
  max 1 ((1 / 10) * (g.stop / ratio - g.start / ratio))

/-- `match_score_start` at one resolution: per anchor `[j, j+1]`, the max
over ground truths of the overlap ratio with the window of half-width
`gt_len_small/2` around the rescaled segment start. -/
def matchScoreStart (ratio : ℚ) (n : ℕ) (gts : List Seg) : List ℚ :=
  (List.range n).map (fun (j : ℕ) =>
    npMax (gts.map (fun g =>
      let gxmin := g.start / ratio
      let w := gtLenSmall ratio g
      ioa_with_anchors (j : ℚ) ((j : ℚ) + 1) (gxmin - w / 2) (gxmin + w / 2))))

/-- `match_score_end` at one resolution: same construction around the
rescaled segment end. -/
def matchScoreEnd (ratio : ℚ) (n : ℕ) (gts : List Seg) : List ℚ :=
  (List.range n).map (fun (j : ℕ) =>
    npMax (gts.map (fun g =>
      let gxmax := g.stop / ratio
      let w := gtLenSmall ratio g
      ioa_with_anchors (j : ℚ) ((j : ℚ) + 1) (gxmax - w / 2) (gxmax + w / 2))))

/-- `starting_gt`: concatenation of `match_score_start` over the six
resolutions `num_levels = [2304,1152,576,288,144,72]` with
`level_ratio = [1,2,4,8,16,32]`. -/
def startingGt (gts : List Seg) : List ℚ :=
  matchScoreStart 1 2304 gts ++ matchScoreStart 2 1152 gts ++
  matchScoreStart 4 576 gts ++ matchScoreStart 8 288 gts ++
  matchScoreStart 16 144 gts ++ matchScoreStart 32 72 gts

/-- `ending_gt`: concatenation of `match_score_end` over the six
resolutions. -/
def endingGt (gts : List Seg) : List ℚ :=
  matchScoreEnd 1 2304 gts ++ matchScoreEnd 2 1152 gts ++
  matchScoreEnd 4 576 gts ++ matchScoreEnd 8 288 gts ++
  matchScoreEnd 16 144 gts ++ matchScoreEnd 32 72 gts

/-- `torch.sigmoid`. -/
noncomputable def sigmoid (x : ℝ) : ℝ := 1 / (1 + Real.exp (-x))

/-- The Gaussian boundary-confidence transform
`torch.exp(-torch.square(offset) / (2*sigma*sigma))`, shared between
`ctr_giou_loss_1d` (losses.py) and `inference_single_video`. -/
noncomputable def gaussianBoundaryConf (sigma x : ℝ) : ℝ :=
  Real.exp (-(x ^ 2) / (2 * sigma * sigma))

/-- `conf_s = input_conf_s.sigmoid()` used at inference (the training
loss uses `gaussianBoundaryConf` directly, without the sigmoid). -/
noncomputable def inferenceBoundaryConf (sigma x : ℝ) : ℝ :=
  sigmoid (gaussianBoundaryConf sigma x)

/-- `match_score_action` at one anchor of one resolution: fold over
ground truths, overwriting the initial floor `0.1` with the Gaussian
centerness score of the last segment whose rescaled span contains the
anchor index (last-write-wins, as in the Python `for gt_id` loop). -/
noncomputable def actionScoreAt (cenSigma : ℝ) (ratio : ℚ) (gts : List Seg)
    (ii : ℕ) : ℝ :=
  gts.foldl (fun acc g =>
    if (g.start / ratio ≤ (ii : ℚ) ∧ (ii : ℚ) ≤ g.stop / ratio) then
      let c : ℚ := (g.start / ratio + g.stop / ratio) / 2
      Real.exp (-((|(ii : ℚ) - c| : ℚ) : ℝ) ^ 2 / (2 * cenSigma * cenSigma))
    else acc) 0.1

/-- `action_gt`: concatenation of `match_score_action` over the six
resolutions. -/
noncomputable def actionGt (cenSigma : ℝ) (gts : List Seg) : List ℝ :=
  ((List.range 2304).map (actionScoreAt cenSigma 1 gts)) ++
  ((List.range 1152).map (actionScoreAt cenSigma 2 gts)) ++
  ((List.range 576).map (actionScoreAt cenSigma 4 gts)) ++
  ((List.range 288).map (actionScoreAt cenSigma 8 gts)) ++
  ((List.range 144).map (actionScoreAt cenSigma 16 gts)) ++
  ((List.range 72).map (actionScoreAt cenSigma 32 gts))

/-- The three-value tuple returned by the `num_gts == 0` early return of
`label_points_single_video` (`cls_targets_v, cls_targets_n,
reg_targets`). -/
structure EmptyGtTargets where
  clsV : List ℕ
  clsN : List ℕ
  reg : List (ℚ × ℚ)
deriving DecidableEq

/-- The six-value tuple returned on the normal path of
`label_points_single_video`. -/
structure FullTargets where
  clsV : List ℕ
  clsN : List ℕ
  reg : List (ℚ × ℚ)
  startScores : List ℚ
  endScores : List ℚ
  actionScores : List ℝ

/-- `label_points_single_video`: either the three-value early return
(no ground-truth segments: all-background classification targets and
zero regression targets) or the full six-value tuple. -/
noncomputable def label_points_single_video (cenSigma : ℝ) (numClassesVerb numClassesNoun : ℕ)
    (m : CenterMode) (pts : List Point) (gts : List Seg)
    (labelsV labelsN : List ℕ) : EmptyGtTargets ⊕ FullTargets :=
  if gts.length = 0 then
    Sum.inl ⟨pts.map (fun _ => numClassesVerb),
             pts.map (fun _ => numClassesNoun),
             pts.map (fun _ => ((0 : ℚ), (0 : ℚ)))⟩
  else
    Sum.inr ⟨assignedClsTargets numClassesVerb m pts gts labelsV,
             assignedClsTargets numClassesNoun m pts gts labelsN,
             assignedRegTargets m pts gts,
             startingGt gts, endingGt gts, actionGt cenSigma gts⟩

/-- `label_points`: loops over the videos of a batch, unpacking SIX
values from each `label_points_single_video` call.  When a video has no
ground-truth segments the callee returns only THREE values, which in
Python raises `ValueError: not enough values to unpack`; the error case
of `Except` models that exception. -/
noncomputable def label_points (cenSigma : ℝ) (numClassesVerb numClassesNoun : ℕ)
    (m : CenterMode) (pts : List Point) (gtSegments : List (List Seg))
    (gtLabelsV gtLabelsN : List (List ℕ)) : Except String (List FullTargets) :=
  (gtSegments.zip (gtLabelsV.zip gtLabelsN)).mapM (fun x =>
    match label_points_single_video cenSigma numClassesVerb numClassesNoun m pts
        x.1 x.2.1 x.2.2 with
    | Sum.inl _ => Except.error "ValueError: not enough values to unpack (expected 6, got 3)"
    | Sum.inr t => Except.ok t)

/-- `eps` of `ctr_giou_loss_1d`. -/
def giouEps : ℚ := 1 / 100000000

/-- `miouk` of `ctr_giou_loss_1d` for one positive point: 1D GIoU of the
intervals `(c - lp, c + rp)` and `(c - lg, c + rg)`, with the `eps`
clamp (`clamp(min=eps)` is `max · eps`). -/
def giouMiou (lp rp lg rg : ℚ) : ℚ :=
  let lkis := min lp lg
  let rkis := min rp rg
  let intsctk := rkis + lkis
  let unionk := (lp + rp) + (lg + rg) - intsctk
  let iouk := intsctk / max unionk giouEps
  let lc := max lp lg
  let rc := max rp rg
  let lenC := lc + rc
  iouk - ((lenC - unionk) / max lenC giouEps)

/-- `loss_offset = 1.0 - miouk` for one positive point. -/
def giouLossOffset (lp rp lg rg : ℚ) : ℚ := 1 - giouMiou lp rp lg rg

/-- Network arguments / hyper-parameters consumed by the loss and decode
stages (`args.*` plus the hard-coded constants of `losses`). -/
structure LossArgs where
  verbClsWeight : ℝ
  nounClsWeight : ℝ
  sigma1 : ℝ
  lossWeightBoundaryConf : ℝ
  gauSigma : ℝ
  lossAWeight : ℝ
  lossActWeight : ℝ
  trainLabelSmoothing : ℝ

/-- `ctr_giou_loss_1d` with `reduction='sum'` as called from `losses`:
returns the combined regression/boundary-confidence loss and the
actionness loss.  All input lists are indexed over the positive points. -/
noncomputable def ctr_giou_loss_1d (ar : LossArgs)
    (inputOffsets : List (ℚ × ℚ)) (inputConf : List (ℝ × ℝ))
    (inputActionness : List ℝ) (targetOffsets : List (ℚ × ℚ))
    (targetStart targetEnd : List ℚ) (targetAction : List ℝ) : ℝ × ℝ :=
  let n := inputOffsets.length
  let miou : ℕ → ℚ := fun i =>
    giouMiou (inputOffsets.getD i (0, 0)).1 (inputOffsets.getD i (0, 0)).2
      (targetOffsets.getD i (0, 0)).1 (targetOffsets.getD i (0, 0)).2
  let lossOffset : ℚ := ((List.range n).map (fun i => 1 - miou i)).sum
  let iouMask : ℕ → ℝ := fun i => if (1 : ℚ) / 2 < miou i then 1 else 0
  let confS : ℕ → ℝ := fun i => gaussianBoundaryConf ar.gauSigma (inputConf.getD i (0, 0)).1
  let confE : ℕ → ℝ := fun i => gaussianBoundaryConf ar.gauSigma (inputConf.getD i (0, 0)).2
  let lossConfS : ℝ := ((List.range n).map (fun i =>
    ((targetStart.getD i 0 : ℚ) - confS i) ^ 2 * iouMask i)).sum
  let lossConfE : ℝ := ((List.range n).map (fun i =>
    ((targetEnd.getD i 0 : ℚ) - confE i) ^ 2 * iouMask i)).sum
  let lossConf : ℝ := 0.5 * lossConfS + 0.5 * lossConfE
  let lossAction : ℝ := (((List.range n).map (fun i =>
    (targetAction.getD i 0 - sigmoid (inputActionness.getD i 0)) ^ 2 * iouMask i)).sum) / n
  (ar.sigma1 * (lossOffset : ℝ) + ar.lossWeightBoundaryConf * lossConf, lossAction)

/-- Boolean-mask tensor indexing `tensor[mask]`. -/
def maskSelect (mask : List Bool) (l : List α) : List α :=
  (l.zip mask).filterMap (fun x => if x.2 then some x.1 else none)

/-- `pos_mask`: a flattened point is positive when both its verb and
noun targets are valid foreground classes and the point is valid.  (The
`>= 0` conjuncts of the source hold trivially for `ℕ` targets.) -/
def posMask (numClassesVerb numClassesNoun : ℕ) (gtV gtN : List ℕ)
    (valid : List Bool) : List Bool :=
  ((gtV.zip gtN).zip valid).map (fun x =>
    decide (x.1.2 ≠ numClassesNoun) && decide (x.1.1 ≠ numClassesVerb) && x.2)

/-- `self.loss_normalizer_momentum`. -/
def lossNormalizerMomentum : ℚ := 9 / 10

/-- The EMA update of `self.loss_normalizer` executed on every call of
`losses`:
`m * old + (1 - m) * max(num_pos, 1)`. -/
def updateLossNormalizer (old : ℚ) (numPos : ℕ) : ℚ :=
  lossNormalizerMomentum * old + (1 - lossNormalizerMomentum) * max (numPos : ℚ) 1

/-- One row of the smoothed classification target:
`F.one_hot(cls, C+1)[:, :-1]` (the background column is dropped), then
`*= 1 - smoothing` and `+= smoothing / (C + 1)`. -/
noncomputable def oneHotSmooth (numClasses : ℕ) (smoothing : ℝ) (cls : ℕ) : List ℝ :=
  (List.range numClasses).map (fun j =>
    (if cls = j then 1 else 0) * (1 - smoothing) + smoothing / (numClasses + 1))

/-- One element of `sigmoid_focal_loss` (α = 0.25, γ = 2.0). -/
noncomputable def sigmoidFocalElt (x t : ℝ) : ℝ :=
  let p := sigmoid x
  let ceLoss := -(t * Real.log p + (1 - t) * Real.log (1 - p))
  let pt := p * t + (1 - p) * (1 - t)
  let alphaT := 0.25 * t + (1 - 0.25) * (1 - t)
  alphaT * (ceLoss * (1 - pt) ^ 2)

/-- `sigmoid_focal_loss(..., reduction='sum')` over the valid points of
one taxonomy: rows are per-point logits over `numClasses` channels,
targets the smoothed one-hot rows. -/
noncomputable def sigmoid_focal_loss_sum (numClasses : ℕ) (smoothing : ℝ)
    (logits : List (List ℝ)) (cls : List ℕ) (valid : List Bool) : ℝ :=
  ((maskSelect valid (logits.zip cls)).map (fun row =>
    ((row.1.zip (oneHotSmooth numClasses smoothing row.2)).map
      (fun z => sigmoidFocalElt z.1 z.2)).sum)).sum

/-- Per-point network outputs of the visual stream, flattened over the
pyramid levels (the `torch.cat(..., dim=1)` of `losses`). -/
structure StreamPreds where
  logitsV : List (List ℝ)
  logitsN : List (List ℝ)
  offsets : List (ℚ × ℚ)
  conf : List (ℝ × ℝ)
  actAudio : List ℝ

/-- Flattened assigner targets of one batch (the `torch.stack` of
`losses`). -/
structure TargetData where
  gtV : List ℕ
  gtN : List ℕ
  gtOffsets : List (ℚ × ℚ)
  gtStart : List ℚ
  gtEnd : List ℚ
  gtAction : List ℝ

/-- The visual-stream loss dict
`{cls_loss_v, cls_loss_n, reg_loss, act_loss}`. -/
structure VisualOut where
  clsLossV : ℝ
  clsLossN : ℝ
  regLoss : ℝ
  actLoss : ℝ

/-- The audio-stream loss dict `{cls_loss_v, cls_loss_n}`. -/
structure AudioOut where
  clsLossV : ℝ
  clsLossN : ℝ

/-- Builds the visual return dict.  In the `num_pos == 0` branch the
Python local `actionness_loss` was never assigned, so evaluating the
dict literal raises `UnboundLocalError`; the `none` case models that. -/
noncomputable def mkVisualOut (clsV clsN reg : ℝ) (act : Option ℝ) :
    Except String VisualOut :=
  match act with
  | Option.none =>
      Except.error "UnboundLocalError: local variable actionness_loss referenced before assignment"
  | Option.some a => Except.ok ⟨clsV, clsN, reg, a⟩

/-- `losses` with `is_audio = False` (the visual stream).  Returns the
updated `self.loss_normalizer` together with the loss dict (or the
exception raised while building it). -/
noncomputable def lossesVisual (ar : LossArgs) (numClassesVerb numClassesNoun : ℕ)
    (normalizer : ℚ) (pr : StreamPreds) (tg : TargetData) (valid : List Bool) :
    ℚ × Except String VisualOut :=
  let pm := posMask numClassesVerb numClassesNoun tg.gtV tg.gtN valid
  let numPos := pm.count true
  let normalizer2 := updateLossNormalizer normalizer numPos
  let clsLossV := ar.verbClsWeight *
    (sigmoid_focal_loss_sum numClassesVerb ar.trainLabelSmoothing pr.logitsV tg.gtV valid / 250)
  let clsLossN := ar.nounClsWeight *
    (sigmoid_focal_loss_sum numClassesNoun ar.trainLabelSmoothing pr.logitsN tg.gtN valid / 500)
  (normalizer2,
    if numPos = 0 then
      let regLoss : ℝ := 0 * ((maskSelect pm pr.offsets).map (fun o => o.1 + o.2)).sum
      mkVisualOut clsLossV clsLossN regLoss none
    else
      let g := ctr_giou_loss_1d ar (maskSelect pm pr.offsets) (maskSelect pm pr.conf)
        (maskSelect pm pr.actAudio) (maskSelect pm tg.gtOffsets)
        (maskSelect pm tg.gtStart) (maskSelect pm tg.gtEnd) (maskSelect pm tg.gtAction)
      mkVisualOut clsLossV clsLossN (g.1 / (normalizer2 : ℝ)) (some g.2))

/-- `losses` with `is_audio = True` (the audio stream): the normalizer
is updated exactly as in the visual call, and only the two
classification losses are returned. -/
noncomputable def lossesAudio (ar : LossArgs) (numClassesVerb numClassesNoun : ℕ)
    (normalizer : ℚ) (logitsV logitsN : List (List ℝ)) (tg : TargetData)
    (valid : List Bool) : ℚ × AudioOut :=
  let pm := posMask numClassesVerb numClassesNoun tg.gtV tg.gtN valid
  let numPos := pm.count true
  let normalizer2 := updateLossNormalizer normalizer numPos
  (normalizer2,
    ⟨ar.verbClsWeight *
      (sigmoid_focal_loss_sum numClassesVerb ar.trainLabelSmoothing logitsV tg.gtV valid / 250),
     ar.nounClsWeight *
      (sigmoid_focal_loss_sum numClassesNoun ar.trainLabelSmoothing logitsN tg.gtN valid / 500)⟩)

/-- The combined loss dict assembled by `forward` after the two `losses`
calls. -/
structure TrainLosses where
  clsV : ℝ
  clsN : ℝ
  regVisual : ℝ
  action : ℝ
  finalLoss : ℝ

/-- The training branch of `forward` after target assignment: one call
of `losses` on the visual stream followed by one call on the audio
stream (both mutate `self.loss_normalizer`), then the weighted
combination of the two loss dicts. -/
noncomputable def forwardTrainStep (ar : LossArgs) (numClassesVerb numClassesNoun : ℕ)
    (normalizer : ℚ) (prVisual : StreamPreds) (tg : TargetData)
    (validVisual : List Bool) (logitsVAudio logitsNAudio : List (List ℝ))
    (validAudio : List Bool) : ℚ × Except String TrainLosses :=
  let r1 := lossesVisual ar numClassesVerb numClassesNoun normalizer prVisual tg validVisual
  let r2 := lossesAudio ar numClassesVerb numClassesNoun r1.1 logitsVAudio logitsNAudio tg validAudio
  (r2.1,
    match r1.2 with
    | Except.error e => Except.error e
    | Except.ok v =>
      let clsV := v.clsLossV + ar.lossAWeight * (r2.2).clsLossV
      let clsN := v.clsLossN + ar.lossAWeight * (r2.2).clsLossN
      Except.ok ⟨clsV, clsN, v.regLoss, v.actLoss,
        clsV + clsN + v.regLoss + ar.lossActWeight * v.actLoss⟩)

/-- The flattened per-level joint score tensor of the decoder:
`mul_cls_score = noun_topk_scores.unsqueeze(-1) * verb_topk_scores.unsqueeze(1)`
has shape `[T, noun_topk, verb_topk] = [T, 33, 11]`, and `.flatten()`
lays it out row-major.  `f p n v` is the score of point `p`, retained
noun slot `n`, retained verb slot `v`. -/
def flattenedJointScores (T : ℕ) (f : ℕ → ℕ → ℕ → ℚ) : List ℚ :=
  (List.range T).flatMap (fun p =>
    (List.range 33).flatMap (fun n =>
      (List.range 11).map (fun v => f p n v)))

/-- `pt_idxs = topk_idxs // (verb_topk * noun_topk)` with
`verb_topk, noun_topk = 11, 33`. -/
def pt_idxs (i : ℕ) : ℕ := i / (11 * 33)

/-- `dx_loc = topk_idxs % (verb_topk * noun_topk)`. -/
def dx_loc (i : ℕ) : ℕ := i % (11 * 33)

/-- `cls_noun_idxs1 = dx_loc // verb_topk`. -/
def cls_noun_idxs1 (i : ℕ) : ℕ := dx_loc i / 11

/-- `cls_verb_idxs1 = dx_loc % verb_topk`. -/
def cls_verb_idxs1 (i : ℕ) : ℕ := dx_loc i % 11

theorem foldr_optMin_ne_none {l : List (Option ℚ)} {x : ℚ} (hx : some x ∈ l) :
    l.foldr optMin none ≠ none := by
  induction l with
  | nil => simp at hx
  | cons a t ih =>
    rcases List.mem_cons.mp hx with h | h
    · subst h
      cases ht : t.foldr optMin none <;> simp [optMin, ht]
    · have := ih h
      cases ht : t.foldr optMin none with
      | none => exact absurd ht this
      | some y => cases a <;> simp [optMin, ht]

theorem foldr_optMin_mem {l : List (Option ℚ)} {q : ℚ}
    (h : l.foldr optMin none = some q) : some q ∈ l := by
  induction l generalizing q with
  | nil => simp [List.foldr] at h
  | cons a t ih =>
    simp only [List.foldr] at h
    cases a with
    | none =>
      simp only [optMin] at h
      exact List.mem_cons_of_mem _ (ih h)
    | some x =>
      cases ht : t.foldr optMin none with
      | none =>
        rw [ht] at h
        simp only [optMin, Option.some.injEq] at h
        exact List.mem_cons.mpr (Or.inl (by rw [h]))
      | some y =>
        rw [ht] at h
        simp only [optMin, Option.some.injEq] at h
        rcases min_choice x y with hm | hm
        · have hxq : x = q := hm.symm.trans h
          exact List.mem_cons.mpr (Or.inl (by rw [hxq]))
        · have hyq : y = q := hm.symm.trans h
          exact List.mem_cons_of_mem _ (hyq ▸ ih ht)

theorem foldr_optMin_le {l : List (Option ℚ)} {q x : ℚ}
    (h : l.foldr optMin none = some q) (hx : some x ∈ l) : q ≤ x := by
  induction l generalizing q with
  | nil => simp at hx
  | cons a t ih =>
    simp only [List.foldr] at h
    rcases List.mem_cons.mp hx with hh | hh
    · subst hh
      cases ht : t.foldr optMin none with
      | none =>
        rw [ht] at h
        simp only [optMin, Option.some.injEq] at h
        exact le_of_eq h.symm
      | some y =>
        rw [ht] at h
        simp only [optMin, Option.some.injEq] at h
        rw [← h]
        exact min_le_left x y
    · cases ht : t.foldr optMin none with
      | none => exact absurd ht (foldr_optMin_ne_none hh)
      | some y =>
        have hyx : y ≤ x := ih ht hh
        rw [ht] at h
        cases a with
        | none =>
          simp only [optMin, Option.some.injEq] at h
          exact h ▸ hyx
        | some z =>
          simp only [optMin, Option.some.injEq] at h
          calc q = min z y := h.symm
            _ ≤ y := min_le_right z y
            _ ≤ x := hyx

theorem minLen_spec {m : CenterMode} {p : Point} {gts : List Seg} {q : ℚ}
    (h : minLen m p gts = some q) :
    minLenIdx m p gts < gts.length ∧
    qualifies m p (gts.getD (minLenIdx m p gts) ⟨0, 0⟩) = true ∧
    segLen (gts.getD (minLenIdx m p gts) ⟨0, 0⟩) = q := by
  have hmem : some q ∈ maskedLens m p gts := foldr_optMin_mem h
  have hex : ∃ o ∈ maskedLens m p gts, decide (o = minLen m p gts) = true :=
    ⟨some q, hmem, by simp [h]⟩
  have hlt : (maskedLens m p gts).findIdx (fun o => decide (o = minLen m p gts)) <
      (maskedLens m p gts).length := List.findIdx_lt_length_of_exists hex
  have hlen : (maskedLens m p gts).length = gts.length := by
    simp [maskedLens]
  have hidx : minLenIdx m p gts < gts.length := by
    rw [← hlen]; exact hlt
  have hget := List.findIdx_getElem (w := hlt)
  simp only [decide_eq_true_eq] at hget
  have hgetm : (maskedLens m p gts)[(maskedLens m p gts).findIdx
      (fun o => decide (o = minLen m p gts))] =
      maskedLen m p (gts.get ⟨minLenIdx m p gts, hidx⟩) := by
    simp only [maskedLens, minLenIdx]
    rw [List.getElem_map]
    simp [List.get_eq_getElem]
  rw [hgetm, h] at hget
  have hgd : gts.getD (minLenIdx m p gts) ⟨0, 0⟩ =
      gts.get ⟨minLenIdx m p gts, hidx⟩ := by
    rw [List.getD_eq_getElem?_getD, List.getElem?_eq_getElem hidx]
    simp [List.get_eq_getElem]
  refine ⟨hidx, ?_, ?_⟩
  · rw [hgd]
    by_contra hq
    have : maskedLen m p (gts.get ⟨minLenIdx m p gts, hidx⟩) = none := by
      unfold maskedLen
      rw [if_neg (by simpa using hq)]
    rw [this] at hget
    exact Option.noConfusion hget
  · rw [hgd]
    unfold maskedLen at hget
    by_cases hq : qualifies m p (gts.get ⟨minLenIdx m p gts, hidx⟩) = true
    · rw [if_pos hq] at hget
      exact Option.some.inj hget
    · rw [if_neg hq] at hget
      exact absurd hget (by simp)

theorem minLen_le_of_qualifies {m : CenterMode} {p : Point} {gts : List Seg}
    {g : Seg} (hg : g ∈ gts) (hq : qualifies m p g = true) {q : ℚ}
    (h : minLen m p gts = some q) : q ≤ segLen g := by
  have hmem : some (segLen g) ∈ maskedLens m p gts := by
    have : maskedLen m p g = some (segLen g) := by
      unfold maskedLen; rw [if_pos hq]
    exact this ▸ List.mem_map_of_mem (maskedLen m p) hg
  exact foldr_optMin_le h hmem

theorem insideGtSeg_pos {m : CenterMode} {p : Point} {g : Seg}
    (h : insideGtSeg m p g = true) : 0 < leftDist p g ∧ 0 < rightDist p g := by
  cases m with
  | off =>
    simp only [insideGtSeg, decide_eq_true_eq, lt_min_iff] at h
    exact h
  | radius r =>
    simp only [insideGtSeg, decide_eq_true_eq, lt_min_iff] at h
    obtain ⟨hl, hr⟩ := h
    constructor
    · calc (0 : ℚ) < p.t - max ((g.start + g.stop) / 2 - p.stride * r) g.start := hl
        _ ≤ p.t - g.start := by
            have := le_max_right ((g.start + g.stop) / 2 - p.stride * r) g.start
            linarith
    · calc (0 : ℚ) < min ((g.start + g.stop) / 2 + p.stride * r) g.stop - p.t := hr
        _ ≤ g.stop - p.t := by
            have := min_le_right ((g.start + g.stop) / 2 + p.stride * r) g.stop
            linarith

theorem clsTarget_ne_bg_minLen {numClasses : ℕ} {m : CenterMode} {p : Point}
    {gts : List Seg} {labels : List ℕ}
    (h : clsTarget numClasses m p gts labels ≠ numClasses) :
    ∃ q, minLen m p gts = some q := by
  unfold clsTarget at h
  by_cases hn : minLen m p gts = none
  · rw [if_pos hn] at h
    exact absurd rfl h
  · cases hq : minLen m p gts with
    | none => exact absurd hq hn
    | some q => exact ⟨q, rfl⟩

/-- C6: for every point whose class target is not the background
sentinel, the assigned ground-truth segment lies at non-negative left
and right distances from the point, the maximal distance falls inside
the point's configured `[reg_min, reg_max]` band, and the returned
stride-normalized regression target is non-negative — under both
center-sampling modes. -/
theorem assigned_point_reg_bounds (m : CenterMode) (p : Point) (gts : List Seg)
    (labels : List ℕ) (numClasses : ℕ) (hs : 0 < p.stride)
    (h : clsTarget numClasses m p gts labels ≠ numClasses) :
    minLenIdx m p gts < gts.length ∧
    0 ≤ leftDist p (gts.getD (minLenIdx m p gts) ⟨0, 0⟩) ∧
    0 ≤ rightDist p (gts.getD (minLenIdx m p gts) ⟨0, 0⟩) ∧
    p.regMin ≤ maxRegressDistance p (gts.getD (minLenIdx m p gts) ⟨0, 0⟩) ∧
    maxRegressDistance p (gts.getD (minLenIdx m p gts) ⟨0, 0⟩) ≤ p.regMax ∧
    0 ≤ (regTargetOfPoint m p gts).1 ∧ 0 ≤ (regTargetOfPoint m p gts).2 := by
  obtain ⟨q, hq⟩ := clsTarget_ne_bg_minLen h
  obtain ⟨hidx, hqual, _⟩ := minLen_spec hq
  have hq2 := hqual
  unfold qualifies at hq2
  rw [Bool.and_eq_true] at hq2
  obtain ⟨hin, hrange⟩ := hq2
  obtain ⟨hl, hr⟩ := insideGtSeg_pos hin
  simp only [insideRegressRange, decide_eq_true_eq] at hrange
  refine ⟨hidx, le_of_lt hl, le_of_lt hr, hrange.1, hrange.2, ?_, ?_⟩
  · unfold regTargetOfPoint
    exact div_nonneg (le_of_lt hl) (le_of_lt hs)
  · unfold regTargetOfPoint
    exact div_nonneg (le_of_lt hr) (le_of_lt hs)

/-- Witness for C6: the point `t=3` with band `[0,8]` and stride 1 is
assigned to the segment `(2,4)` with class 5, and the bounds hold. -/
theorem assigned_point_reg_bounds_witness :
    minLenIdx CenterMode.off ⟨3, 0, 8, 1⟩ [⟨2, 4⟩] < ([⟨2, 4⟩] : List Seg).length ∧
    0 ≤ leftDist ⟨3, 0, 8, 1⟩ (([⟨2, 4⟩] : List Seg).getD
      (minLenIdx CenterMode.off ⟨3, 0, 8, 1⟩ [⟨2, 4⟩]) ⟨0, 0⟩) ∧
    0 ≤ rightDist ⟨3, 0, 8, 1⟩ (([⟨2, 4⟩] : List Seg).getD
      (minLenIdx CenterMode.off ⟨3, 0, 8, 1⟩ [⟨2, 4⟩]) ⟨0, 0⟩) ∧
    Point.regMin ⟨3, 0, 8, 1⟩ ≤ maxRegressDistance ⟨3, 0, 8, 1⟩
      (([⟨2, 4⟩] : List Seg).getD (minLenIdx CenterMode.off ⟨3, 0, 8, 1⟩ [⟨2, 4⟩]) ⟨0, 0⟩) ∧
    maxRegressDistance ⟨3, 0, 8, 1⟩ (([⟨2, 4⟩] : List Seg).getD
      (minLenIdx CenterMode.off ⟨3, 0, 8, 1⟩ [⟨2, 4⟩]) ⟨0, 0⟩) ≤ Point.regMax ⟨3, 0, 8, 1⟩ ∧
    0 ≤ (regTargetOfPoint CenterMode.off ⟨3, 0, 8, 1⟩ [⟨2, 4⟩]).1 ∧
    0 ≤ (regTargetOfPoint CenterMode.off ⟨3, 0, 8, 1⟩ [⟨2, 4⟩]).2 :=
  assigned_point_reg_bounds CenterMode.off ⟨3, 0, 8, 1⟩ [⟨2, 4⟩] [5] 97
    (by norm_num)
    (by norm_num [clsTarget, minLen, minLenIdx, maskedLens, maskedLen, qualifies,
      insideGtSeg, insideRegressRange, maxRegressDistance, leftDist, rightDist,
      segLen, optMin, min_def, max_def, List.findIdx_cons, List.getD,
      Option.some_ne_none])

/-- C5: whenever a point is matched at all (`min_len` finite) the
selected ground-truth segment itself qualifies and its duration is
minimal among all qualifying segments — torch `min` picks a shortest
qualifying segment. -/
theorem tie_break_shortest (m : CenterMode) (p : Point) (gts : List Seg)
    (h : minLen m p gts ≠ none) :
    qualifies m p (gts.getD (minLenIdx m p gts) ⟨0, 0⟩) = true ∧
    ∀ g ∈ gts, qualifies m p g = true →
      segLen (gts.getD (minLenIdx m p gts) ⟨0, 0⟩) ≤ segLen g := by
  cases hq : minLen m p gts with
  | none => exact absurd hq h
  | some q =>
    obtain ⟨_, hqual, hlen⟩ := minLen_spec hq
    refine ⟨hqual, fun g hg hgq => ?_⟩
    rw [hlen]
    exact minLen_le_of_qualifies hg hgq hq

/-- Witness for C5, the constructed case of the spec: point `t=5` with
band `[0,100]`, segments `(0,10)` and `(4,6)`; the assigner selects
index 1, i.e. the shorter segment `(4,6)`, and it qualifies. -/
theorem tie_break_shortest_witness :
    minLen CenterMode.off ⟨5, 0, 100, 1⟩ [⟨0, 10⟩, ⟨4, 6⟩] ≠ none ∧
    ([⟨0, 10⟩, ⟨4, 6⟩] : List Seg).getD
      (minLenIdx CenterMode.off ⟨5, 0, 100, 1⟩ [⟨0, 10⟩, ⟨4, 6⟩]) ⟨0, 0⟩ = ⟨4, 6⟩ ∧
    qualifies CenterMode.off ⟨5, 0, 100, 1⟩ (([⟨0, 10⟩, ⟨4, 6⟩] : List Seg).getD
      (minLenIdx CenterMode.off ⟨5, 0, 100, 1⟩ [⟨0, 10⟩, ⟨4, 6⟩]) ⟨0, 0⟩) = true :=
  ⟨by norm_num [minLen, maskedLens, maskedLen, qualifies, insideGtSeg,
      insideRegressRange, maxRegressDistance, leftDist, rightDist, segLen,
      optMin, min_def, max_def, Option.some_ne_none],
   by norm_num [minLen, minLenIdx, maskedLens, maskedLen, qualifies, insideGtSeg,
      insideRegressRange, maxRegressDistance, leftDist, rightDist, segLen,
      optMin, min_def, max_def, List.findIdx_cons, List.getD, Option.some_ne_none],
   (tie_break_shortest CenterMode.off ⟨5, 0, 100, 1⟩ [⟨0, 10⟩, ⟨4, 6⟩]
     (by norm_num [minLen, maskedLens, maskedLen, qualifies, insideGtSeg,
       insideRegressRange, maxRegressDistance, leftDist, rightDist, segLen,
       optMin, min_def, max_def, Option.some_ne_none])).1⟩

/-- C3 counterexample: in the spec scenario (6 unit-stride anchors
`t=0..5`, band `[0,8]`, one ground truth `(2,4)` with verb 1 / noun 1)
anchor 2 receives the background sentinel, not class 1, under both
center-sampling modes — its left distance is 0 and the inside test is
strict. -/
theorem scenario_anchor2_background :
    (assignedClsTargets 97 CenterMode.off
      [⟨0, 0, 8, 1⟩, ⟨1, 0, 8, 1⟩, ⟨2, 0, 8, 1⟩, ⟨3, 0, 8, 1⟩, ⟨4, 0, 8, 1⟩, ⟨5, 0, 8, 1⟩]
      [⟨2, 4⟩] [1]).getD 2 0 = 97 ∧
    (assignedClsTargets 97 (CenterMode.radius (3 / 2))
      [⟨0, 0, 8, 1⟩, ⟨1, 0, 8, 1⟩, ⟨2, 0, 8, 1⟩, ⟨3, 0, 8, 1⟩, ⟨4, 0, 8, 1⟩, ⟨5, 0, 8, 1⟩]
      [⟨2, 4⟩] [1]).getD 2 0 = 97 := by
  constructor <;>
    norm_num [assignedClsTargets, clsTarget, minLen, minLenIdx, maskedLens,
      maskedLen, qualifies, insideGtSeg, insideRegressRange, maxRegressDistance,
      leftDist, rightDist, segLen, optMin, min_def, max_def, List.findIdx_cons,
      List.getD, Option.some_ne_none]

/-- C3 amended: in the spec scenario only anchor 3 is assigned
(verb 1, noun 1, normalized offsets `(1,1)`); anchors 0,1,2,4,5 receive
the background sentinel — identically under both center-sampling
modes (`'none'`, and `'radius'` with radius 1.5). -/
theorem scenario_assignment :
    (assignedClsTargets 97 CenterMode.off
      [⟨0, 0, 8, 1⟩, ⟨1, 0, 8, 1⟩, ⟨2, 0, 8, 1⟩, ⟨3, 0, 8, 1⟩, ⟨4, 0, 8, 1⟩, ⟨5, 0, 8, 1⟩]
      [⟨2, 4⟩] [1] = [97, 97, 97, 1, 97, 97] ∧
     assignedClsTargets 300 CenterMode.off
      [⟨0, 0, 8, 1⟩, ⟨1, 0, 8, 1⟩, ⟨2, 0, 8, 1⟩, ⟨3, 0, 8, 1⟩, ⟨4, 0, 8, 1⟩, ⟨5, 0, 8, 1⟩]
      [⟨2, 4⟩] [1] = [300, 300, 300, 1, 300, 300] ∧
     (assignedRegTargets CenterMode.off
      [⟨0, 0, 8, 1⟩, ⟨1, 0, 8, 1⟩, ⟨2, 0, 8, 1⟩, ⟨3, 0, 8, 1⟩, ⟨4, 0, 8, 1⟩, ⟨5, 0, 8, 1⟩]
      [⟨2, 4⟩]).getD 3 (0, 0) = (1, 1)) ∧
    (assignedClsTargets 97 (CenterMode.radius (3 / 2))
      [⟨0, 0, 8, 1⟩, ⟨1, 0, 8, 1⟩, ⟨2, 0, 8, 1⟩, ⟨3, 0, 8, 1⟩, ⟨4, 0, 8, 1⟩, ⟨5, 0, 8, 1⟩]
      [⟨2, 4⟩] [1] = [97, 97, 97, 1, 97, 97] ∧
     assignedClsTargets 300 (CenterMode.radius (3 / 2))
      [⟨0, 0, 8, 1⟩, ⟨1, 0, 8, 1⟩, ⟨2, 0, 8, 1⟩, ⟨3, 0, 8, 1⟩, ⟨4, 0, 8, 1⟩, ⟨5, 0, 8, 1⟩]
      [⟨2, 4⟩] [1] = [300, 300, 300, 1, 300, 300] ∧
     (assignedRegTargets (CenterMode.radius (3 / 2))
      [⟨0, 0, 8, 1⟩, ⟨1, 0, 8, 1⟩, ⟨2, 0, 8, 1⟩, ⟨3, 0, 8, 1⟩, ⟨4, 0, 8, 1⟩, ⟨5, 0, 8, 1⟩]
      [⟨2, 4⟩]).getD 3 (0, 0) = (1, 1)) := by
  refine ⟨⟨?_, ?_, ?_⟩, ?_, ?_, ?_⟩ <;>
    norm_num [assignedClsTargets, assignedRegTargets, clsTarget, regTargetOfPoint,
      minLen, minLenIdx, maskedLens, maskedLen, qualifies, insideGtSeg,
      insideRegressRange, maxRegressDistance, leftDist, rightDist, segLen,
      optMin, min_def, max_def, List.findIdx_cons, List.getD, Option.some_ne_none]

/-- C1: for a video with zero ground-truth segments
`label_points_single_video` early-returns the THREE-value tuple with
all-background classification targets and all-zero regression targets,
but `label_points` unpacks SIX values from it, so the batch-level call
raises `ValueError` instead of handling the video non-fatally. -/
theorem label_points_empty_gt (cenSigma : ℝ) (numClassesVerb numClassesNoun : ℕ)
    (m : CenterMode) (pts : List Point) (labelsV labelsN : List ℕ) :
    label_points_single_video cenSigma numClassesVerb numClassesNoun m pts []
        labelsV labelsN =
      Sum.inl ⟨pts.map (fun _ => numClassesVerb),
               pts.map (fun _ => numClassesNoun),
               pts.map (fun _ => ((0 : ℚ), (0 : ℚ)))⟩ ∧
    label_points cenSigma numClassesVerb numClassesNoun m pts [[]]
        [labelsV] [labelsN] =
      Except.error "ValueError: not enough values to unpack (expected 6, got 3)" := by
  constructor
  · simp [label_points_single_video]
  · rfl

/-- C2: whenever a mini-batch has zero positive points, the visual
`losses` call computes `reg_loss = 0 * pred_offsets.sum()` but never
assigns `actionness_loss`, so building the returned loss dict raises
`UnboundLocalError` instead of returning zero-valued losses. -/
theorem zero_positive_points_loss_error (ar : LossArgs)
    (numClassesVerb numClassesNoun : ℕ) (normalizer : ℚ) (pr : StreamPreds)
    (tg : TargetData) (valid : List Bool)
    (h : (posMask numClassesVerb numClassesNoun tg.gtV tg.gtN valid).count true = 0) :
    (lossesVisual ar numClassesVerb numClassesNoun normalizer pr tg valid).2 =
      Except.error "UnboundLocalError: local variable actionness_loss referenced before assignment" := by
  simp [lossesVisual, mkVisualOut, h]

/-- Witness for C2: a one-point batch whose verb/noun targets are both
the background sentinel has zero positive points and the visual loss
call raises. -/
theorem zero_positive_points_loss_error_witness :
    (lossesVisual ⟨1, 1, 1, 1, 1, 1, 1, 1⟩ 97 300 100
      ⟨[[0]], [[0]], [(1, 1)], [(0, 0)], [0]⟩
      ⟨[97], [300], [(1, 1)], [0], [0], [0]⟩ [true]).2 =
      Except.error "UnboundLocalError: local variable actionness_loss referenced before assignment" :=
  zero_positive_points_loss_error ⟨1, 1, 1, 1, 1, 1, 1, 1⟩ 97 300 100
    ⟨[[0]], [[0]], [(1, 1)], [(0, 0)], [0]⟩
    ⟨[97], [300], [(1, 1)], [0], [0], [0]⟩ [true] (by decide)

/-- C8 counterexample: identical, strictly positive predicted and
ground-truth offsets below the `eps` clamp give a nonzero GIoU loss
(`4/5`), so loss 0 does not hold for all identical positive offsets. -/
theorem giou_identical_tiny_nonzero :
    (0 : ℚ) < 1 / 1000000000 ∧
    giouLossOffset (1 / 1000000000) (1 / 1000000000) (1 / 1000000000)
      (1 / 1000000000) = 4 / 5 := by
  constructor
  · norm_num
  · norm_num [giouLossOffset, giouMiou, giouEps, min_def, max_def]

/-- C8 amended: for identical predicted and ground-truth offsets whose
total extent is at least the `eps` clamp (in particular `(3,3)`), the
GIoU regression loss term is exactly zero: the IoU is 1 and the
enclosing interval equals the union. -/
theorem giou_identical_offsets_zero (lp rp : ℚ) (h : giouEps ≤ lp + rp) :
    giouLossOffset lp rp lp rp = 0 := by
  have hpos : (0 : ℚ) < lp + rp := lt_of_lt_of_le (by norm_num [giouEps]) h
  have hne : lp + rp ≠ 0 := ne_of_gt hpos
  simp only [giouLossOffset, giouMiou, min_self, max_self]
  have h1 : lp + rp + (lp + rp) - (rp + lp) = lp + rp := by ring
  rw [h1, max_eq_left h, show rp + lp = lp + rp by ring, div_self hne]
  simp

/-- Witness for C8: at offsets `(3,3)` the extent clears the clamp and
the loss is exactly zero. -/
theorem giou_identical_offsets_zero_witness :
    giouEps ≤ (3 : ℚ) + 3 ∧ giouLossOffset 3 3 3 3 = 0 :=
  ⟨by norm_num [giouEps], giou_identical_offsets_zero 3 3 (by norm_num [giouEps])⟩

theorem length_range_flatMap_const {α : Type} (g : ℕ → List α) (L : ℕ)
    (hg : ∀ j, (g j).length = L) (m : ℕ) :
    ((List.range m).flatMap g).length = m * L := by
  induction m with
  | zero => simp
  | succ n ih =>
    rw [List.range_succ, List.flatMap_append, List.length_append, ih,
      List.flatMap_cons, List.flatMap_nil, List.append_nil, hg]
    ring

theorem getElem?_range_flatMap_const {α : Type} (g : ℕ → List α) (L : ℕ)
    (hg : ∀ j, (g j).length = L) (m p k : ℕ) (hp : p < m) (hk : k < L) :
    ((List.range m).flatMap g)[p * L + k]? = (g p)[k]? := by
  induction m with
  | zero => exact absurd hp (Nat.not_lt_zero p)
  | succ n ih =>
    rw [List.range_succ, List.flatMap_append, List.flatMap_cons,
      List.flatMap_nil, List.append_nil]
    have hlen : ((List.range n).flatMap g).length = n * L :=
      length_range_flatMap_const g L hg n
    by_cases hpn : p < n
    · have hlt : p * L + k < ((List.range n).flatMap g).length := by
        rw [hlen]
        have hp1 : p + 1 ≤ n := hpn
        calc p * L + k < p * L + L := by omega
          _ = (p + 1) * L := by ring
          _ ≤ n * L := Nat.mul_le_mul_right L hp1
      rw [List.getElem?_append, if_pos hlt]
      exact ih hpn
    · have hpe : p = n := by omega
      subst hpe
      rw [List.getElem?_append, hlen, if_neg (by omega)]
      congr 1
      omega

/-- C7: the decoder's integer division/modulo decomposition with
`verb_topk = 11`, `noun_topk = 33` exactly inverts the row-major
flattening of the per-point `[noun_topk × verb_topk]` joint score
tensor: every flat index below `T * 363` recovers an in-range
`(point, noun, verb)` triple addressing the entry whose score is the
selected candidate score. -/
theorem decode_index_inverts_flatten (T : ℕ) (f : ℕ → ℕ → ℕ → ℚ) (i : ℕ)
    (h : i < T * (11 * 33)) :
    pt_idxs i < T ∧ cls_noun_idxs1 i < 33 ∧ cls_verb_idxs1 i < 11 ∧
    (flattenedJointScores T f)[i]? =
      some (f (pt_idxs i) (cls_noun_idxs1 i) (cls_verb_idxs1 i)) := by
  have hpt : pt_idxs i < T := by
    unfold pt_idxs
    omega
  have hnoun : cls_noun_idxs1 i < 33 := by
    unfold cls_noun_idxs1 dx_loc
    omega
  have hverb : cls_verb_idxs1 i < 11 := by
    unfold cls_verb_idxs1 dx_loc
    omega
  refine ⟨hpt, hnoun, hverb, ?_⟩
  have hsplit : i = pt_idxs i * (11 * 33) + (cls_noun_idxs1 i * 11 + cls_verb_idxs1 i) := by
    unfold pt_idxs cls_noun_idxs1 cls_verb_idxs1 dx_loc
    omega
  have hinlen : ∀ j : ℕ,
      ((List.range 33).flatMap (fun n => (List.range 11).map (fun v => f j n v))).length
        = 11 * 33 := by
    intro j
    rw [length_range_flatMap_const (fun n => (List.range 11).map (fun v => f j n v)) 11
      (fun n => by simp) 33]
  have key : (flattenedJointScores T f)[pt_idxs i * (11 * 33) +
      (cls_noun_idxs1 i * 11 + cls_verb_idxs1 i)]? =
      some (f (pt_idxs i) (cls_noun_idxs1 i) (cls_verb_idxs1 i)) := by
    unfold flattenedJointScores
    rw [getElem?_range_flatMap_const _ (11 * 33) hinlen T (pt_idxs i)
      (cls_noun_idxs1 i * 11 + cls_verb_idxs1 i) hpt (by omega)]
    rw [getElem?_range_flatMap_const _ 11 (fun n => by simp) 33 (cls_noun_idxs1 i)
      (cls_verb_idxs1 i) hnoun hverb]
    rw [List.getElem?_map, List.getElem?_range hverb]
    rfl
  rw [← hsplit] at key
  exact key

/-- Witness for C7: flat index 400 with `T = 2` recovers point 1,
noun slot 3, verb slot 4, and addresses that entry of the flattened
joint score list. -/
theorem decode_index_inverts_flatten_witness :
    pt_idxs 400 < 2 ∧ cls_noun_idxs1 400 < 33 ∧ cls_verb_idxs1 400 < 11 ∧
    (flattenedJointScores 2 (fun p n v => (p * 1000 + n * 100 + v : ℚ)))[400]? =
      some ((1 : ℚ) * 1000 + 3 * 100 + 4) :=
  decode_index_inverts_flatten 2 (fun p n v => (p * 1000 + n * 100 + v : ℚ)) 400
    (by norm_num)

theorem ioa_unit_anchor_bounds (a b c : ℚ) :
    0 ≤ ioa_with_anchors a (a + 1) b c ∧ ioa_with_anchors a (a + 1) b c ≤ 1 := by
  unfold ioa_with_anchors
  have hlen : a + 1 - a = 1 := by ring
  rw [hlen]
  constructor
  · rw [div_one]
    exact le_max_right _ 0
  · rw [div_one]
    apply max_le _ (by norm_num)
    have h1 : min (a + 1) c ≤ a + 1 := min_le_left _ _
    have h2 : a ≤ max a b := le_max_left _ _
    linarith

theorem foldl_max_unit_bounds {l : List ℚ} {acc : ℚ}
    (ha : 0 ≤ acc ∧ acc ≤ 1) (hl : ∀ x ∈ l, 0 ≤ x ∧ x ≤ 1) :
    0 ≤ l.foldl max acc ∧ l.foldl max acc ≤ 1 := by
  induction l generalizing acc with
  | nil => exact ha
  | cons a t ih =>
    have hab := hl a (List.mem_cons_self a t)
    refine ih ⟨?_, ?_⟩ (fun x hx => hl x (List.mem_cons_of_mem a hx))
    · exact le_max_of_le_left ha.1
    · exact max_le ha.2 hab.2

theorem npMax_unit_bounds {l : List ℚ} (h : l ≠ [])
    (hl : ∀ x ∈ l, 0 ≤ x ∧ x ≤ 1) : 0 ≤ npMax l ∧ npMax l ≤ 1 := by
  cases l with
  | nil => exact absurd rfl h
  | cons a t =>
    exact foldl_max_unit_bounds (hl a (List.mem_cons_self a t))
      (fun x hx => hl x (List.mem_cons_of_mem a hx))

theorem mem_matchScoreStart_bounds {ratio : ℚ} {n : ℕ} {gts : List Seg}
    (hg : gts ≠ []) {q : ℚ} (hq : q ∈ matchScoreStart ratio n gts) :
    0 ≤ q ∧ q ≤ 1 := by
  unfold matchScoreStart at hq
  obtain ⟨j, _, hj⟩ := List.mem_map.mp hq
  subst hj
  apply npMax_unit_bounds (by simpa using hg)
  intro x hx
  obtain ⟨g, _, hgx⟩ := List.mem_map.mp hx
  subst hgx
  exact ioa_unit_anchor_bounds (j : ℚ) _ _

theorem mem_matchScoreEnd_bounds {ratio : ℚ} {n : ℕ} {gts : List Seg}
    (hg : gts ≠ []) {q : ℚ} (hq : q ∈ matchScoreEnd ratio n gts) :
    0 ≤ q ∧ q ≤ 1 := by
  unfold matchScoreEnd at hq
  obtain ⟨j, _, hj⟩ := List.mem_map.mp hq
  subst hj
  apply npMax_unit_bounds (by simpa using hg)
  intro x hx
  obtain ⟨g, _, hgx⟩ := List.mem_map.mp hx
  subst hgx
  exact ioa_unit_anchor_bounds (j : ℚ) _ _

/-- C9: for any nonempty ground-truth segment set — including degenerate
zero-length segments — every entry of the dense `start_score` and
`end_score` label arrays, over all six resolutions, lies in `[0, 1]`:
each is a max of intersection-over-anchor ratios with unit-length
anchors. -/
theorem boundary_scores_in_unit_interval (gts : List Seg) (hg : gts ≠ [])
    (q : ℚ) (hq : q ∈ startingGt gts ∨ q ∈ endingGt gts) :
    0 ≤ q ∧ q ≤ 1 := by
  rcases hq with hq | hq
  · unfold startingGt at hq
    simp only [List.mem_append] at hq
    rcases hq with ((((hq | hq) | hq) | hq) | hq) | hq <;>
      exact mem_matchScoreStart_bounds hg hq
  · unfold endingGt at hq
    simp only [List.mem_append] at hq
    rcases hq with ((((hq | hq) | hq) | hq) | hq) | hq <;>
      exact mem_matchScoreEnd_bounds hg hq

/-- Witness for C9: the first `start_score` entry for the single
segment `(2,4)` is 0, and it lies in `[0, 1]`. -/
theorem boundary_scores_in_unit_interval_witness :
    0 ≤ (0 : ℚ) ∧ (0 : ℚ) ≤ 1 :=
  boundary_scores_in_unit_interval [⟨2, 4⟩] (by simp) 0
    (Or.inl (by
      have h0 : (matchScoreStart 1 2304 [⟨2, 4⟩])[0]? = some 0 := by
        unfold matchScoreStart
        rw [List.getElem?_map, List.getElem?_range (by norm_num : (0 : ℕ) < 2304)]
        norm_num [npMax, ioa_with_anchors, gtLenSmall, min_def, max_def]
      have hmem : (0 : ℚ) ∈ matchScoreStart 1 2304 [⟨2, 4⟩] :=
        List.getElem?_mem h0
      unfold startingGt
      exact List.mem_append_left _ (List.mem_append_left _
        (List.mem_append_left _ (List.mem_append_left _
          (List.mem_append_left _ hmem))))))

theorem gaussianBoundaryConf_pos (sigma x : ℝ) : 0 < gaussianBoundaryConf sigma x :=
  Real.exp_pos _

theorem gaussianBoundaryConf_le_one (sigma x : ℝ) :
    gaussianBoundaryConf sigma x ≤ 1 := by
  unfold gaussianBoundaryConf
  rw [← Real.exp_zero]
  apply Real.exp_le_exp.mpr
  apply div_nonpos_iff.mpr
  apply Or.inr
  constructor
  · exact neg_nonpos.mpr (sq_nonneg x)
  · nlinarith [sq_nonneg sigma]

theorem sigmoid_gt_half {z : ℝ} (hz : 0 < z) : 1 / 2 < sigmoid z := by
  unfold sigmoid
  have he : Real.exp (-z) < 1 := by
    rw [← Real.exp_zero]
    exact Real.exp_lt_exp.mpr (by linarith)
  have hp : 0 < Real.exp (-z) := Real.exp_pos _
  rw [lt_div_iff₀ (by linarith)]
  linarith

theorem sigmoid_mono {z w : ℝ} (h : z ≤ w) : sigmoid z ≤ sigmoid w := by
  unfold sigmoid
  have he : Real.exp (-w) ≤ Real.exp (-z) := Real.exp_le_exp.mpr (by linarith)
  have hp : 0 < Real.exp (-w) := Real.exp_pos _
  exact one_div_le_one_div_of_le (by linarith) (by linarith)

/-- C10: at inference every boundary-confidence value
`sigmoid(exp(-offset² / (2σ²)))` lies in `(1/2, sigmoid 1]`, so the
additive boundary evidence `0.3 * (conf_start + conf_end)` injected into
the verb/noun logits exceeds `0.3` at every point; and the inference
transform is the sigmoid of the very Gaussian transform that training
compares against the dense labels. -/
theorem inference_boundary_conf_bounds (sigma x y : ℝ) :
    (1 / 2 < inferenceBoundaryConf sigma x ∧
      inferenceBoundaryConf sigma x ≤ sigmoid 1) ∧
    0.3 < 0.3 * (inferenceBoundaryConf sigma x + inferenceBoundaryConf sigma y) ∧
    inferenceBoundaryConf sigma x = sigmoid (gaussianBoundaryConf sigma x) := by
  have hx1 : 1 / 2 < inferenceBoundaryConf sigma x :=
    sigmoid_gt_half (gaussianBoundaryConf_pos sigma x)
  have hy1 : 1 / 2 < inferenceBoundaryConf sigma y :=
    sigmoid_gt_half (gaussianBoundaryConf_pos sigma y)
  have hx2 : inferenceBoundaryConf sigma x ≤ sigmoid 1 :=
    sigmoid_mono (gaussianBoundaryConf_le_one sigma x)
  exact ⟨⟨hx1, hx2⟩, by linarith, rfl⟩

/-- C4 counterexample: the EMA loss normalizer is NOT updated exactly
once per training step.  Starting from 100 with one positive point in
both streams, a single EMA update gives `901/10 = 90.1`, but one
training step of `forward` (which calls `losses` once for the visual
stream and once for the audio stream) leaves the normalizer at
`8119/100 = 81.19`: it was updated twice. -/
theorem loss_normalizer_updated_twice :
    (forwardTrainStep ⟨1, 1, 1, 1, 1, 1, 1, 1⟩ 97 300 100
      ⟨[[0]], [[0]], [(1, 1)], [(0, 0)], [0]⟩
      ⟨[1], [1], [(1, 1)], [0], [0], [0]⟩ [true] [[0]] [[0]] [true]).1 =
      8119 / 100 ∧
    updateLossNormalizer 100 ((posMask 97 300 [1] [1] [true]).count true) =
      901 / 10 ∧
    (8119 : ℚ) / 100 ≠ 901 / 10 := by
  refine ⟨?_, ?_, by norm_num⟩
  · norm_num [forwardTrainStep, lossesVisual, lossesAudio, updateLossNormalizer,
      lossNormalizerMomentum, posMask]
  · norm_num [updateLossNormalizer, lossNormalizerMomentum, posMask]

/-- C4 amended: the EMA loss normalizer is a single scalar updated by
the blend `new = 0.9*old + 0.1*max(num_pos, 1)` on EVERY `losses` call —
hence exactly TWICE per training step (once by the visual-stream call,
once by the audio-stream call); it divides the regression loss, while
the verb and noun classification losses are divided by the distinct
fixed constants 250 and 500. -/
theorem loss_normalizer_discipline (ar : LossArgs)
    (numClassesVerb numClassesNoun : ℕ) (normalizer : ℚ) (pr : StreamPreds)
    (tg : TargetData) (validV : List Bool) (logitsVA logitsNA : List (List ℝ))
    (validA : List Bool)
    (h : 0 < (posMask numClassesVerb numClassesNoun tg.gtV tg.gtN validV).count true) :
    (lossesVisual ar numClassesVerb numClassesNoun normalizer pr tg validV).1 =
      9 / 10 * normalizer + 1 / 10 *
        max (((posMask numClassesVerb numClassesNoun tg.gtV tg.gtN validV).count true : ℚ)) 1 ∧
    (lossesAudio ar numClassesVerb numClassesNoun normalizer logitsVA logitsNA tg validA).1 =
      updateLossNormalizer normalizer
        ((posMask numClassesVerb numClassesNoun tg.gtV tg.gtN validA).count true) ∧
    (forwardTrainStep ar numClassesVerb numClassesNoun normalizer pr tg validV
        logitsVA logitsNA validA).1 =
      updateLossNormalizer (updateLossNormalizer normalizer
        ((posMask numClassesVerb numClassesNoun tg.gtV tg.gtN validV).count true))
        ((posMask numClassesVerb numClassesNoun tg.gtV tg.gtN validA).count true) ∧
    (lossesVisual ar numClassesVerb numClassesNoun normalizer pr tg validV).2 =
      Except.ok
        ⟨ar.verbClsWeight * (sigmoid_focal_loss_sum numClassesVerb
            ar.trainLabelSmoothing pr.logitsV tg.gtV validV / 250),
         ar.nounClsWeight * (sigmoid_focal_loss_sum numClassesNoun
            ar.trainLabelSmoothing pr.logitsN tg.gtN validV / 500),
         (ctr_giou_loss_1d ar
            (maskSelect (posMask numClassesVerb numClassesNoun tg.gtV tg.gtN validV) pr.offsets)
            (maskSelect (posMask numClassesVerb numClassesNoun tg.gtV tg.gtN validV) pr.conf)
            (maskSelect (posMask numClassesVerb numClassesNoun tg.gtV tg.gtN validV) pr.actAudio)
            (maskSelect (posMask numClassesVerb numClassesNoun tg.gtV tg.gtN validV) tg.gtOffsets)
            (maskSelect (posMask numClassesVerb numClassesNoun tg.gtV tg.gtN validV) tg.gtStart)
            (maskSelect (posMask numClassesVerb numClassesNoun tg.gtV tg.gtN validV) tg.gtEnd)
            (maskSelect (posMask numClassesVerb numClassesNoun tg.gtV tg.gtN validV) tg.gtAction)).1 /
           ((updateLossNormalizer normalizer
             ((posMask numClassesVerb numClassesNoun tg.gtV tg.gtN validV).count true) : ℚ) : ℝ),
         (ctr_giou_loss_1d ar
            (maskSelect (posMask numClassesVerb numClassesNoun tg.gtV tg.gtN validV) pr.offsets)
            (maskSelect (posMask numClassesVerb numClassesNoun tg.gtV tg.gtN validV) pr.conf)
            (maskSelect (posMask numClassesVerb numClassesNoun tg.gtV tg.gtN validV) pr.actAudio)
            (maskSelect (posMask numClassesVerb numClassesNoun tg.gtV tg.gtN validV) tg.gtOffsets)
            (maskSelect (posMask numClassesVerb numClassesNoun tg.gtV tg.gtN validV) tg.gtStart)
            (maskSelect (posMask numClassesVerb numClassesNoun tg.gtV tg.gtN validV) tg.gtEnd)
            (maskSelect (posMask numClassesVerb numClassesNoun tg.gtV tg.gtN validV) tg.gtAction)).2⟩ := by
  refine ⟨?_, rfl, rfl, ?_⟩
  · show updateLossNormalizer normalizer _ = _
    unfold updateLossNormalizer lossNormalizerMomentum
    norm_num
  · show (_, if (posMask numClassesVerb numClassesNoun tg.gtV tg.gtN validV).count true = 0
        then _ else _).2 = _
    rw [if_neg (by omega)]
    rfl

/-- Witness for C4: the discipline theorem instantiated at a one-point
batch with one positive point. -/
theorem loss_normalizer_discipline_witness :
    (lossesVisual ⟨1, 1, 1, 1, 1, 1, 1, 1⟩ 97 300 100
      ⟨[[0]], [[0]], [(1, 1)], [(0, 0)], [0]⟩
      ⟨[1], [1], [(1, 1)], [0], [0], [0]⟩ [true]).1 =
      9 / 10 * 100 + 1 / 10 *
        max (((posMask 97 300 [1] [1] [true]).count true : ℚ)) 1 ∧
    (lossesAudio ⟨1, 1, 1, 1, 1, 1, 1, 1⟩ 97 300 100 [[0]] [[0]]
      ⟨[1], [1], [(1, 1)], [0], [0], [0]⟩ [true]).1 =
      updateLossNormalizer 100 ((posMask 97 300 [1] [1] [true]).count true) ∧
    (forwardTrainStep ⟨1, 1, 1, 1, 1, 1, 1, 1⟩ 97 300 100
      ⟨[[0]], [[0]], [(1, 1)], [(0, 0)], [0]⟩
      ⟨[1], [1], [(1, 1)], [0], [0], [0]⟩ [true] [[0]] [[0]] [true]).1 =
      updateLossNormalizer (updateLossNormalizer 100
        ((posMask 97 300 [1] [1] [true]).count true))
        ((posMask 97 300 [1] [1] [true]).count true) ∧
    (lossesVisual ⟨1, 1, 1, 1, 1, 1, 1, 1⟩ 97 300 100
      ⟨[[0]], [[0]], [(1, 1)], [(0, 0)], [0]⟩
      ⟨[1], [1], [(1, 1)], [0], [0], [0]⟩ [true]).2 =
      Except.ok
        ⟨1 * (sigmoid_focal_loss_sum 97 1 [[0]] [1] [true] / 250),
         1 * (sigmoid_focal_loss_sum 300 1 [[0]] [1] [true] / 500),
         (ctr_giou_loss_1d ⟨1, 1, 1, 1, 1, 1, 1, 1⟩
            (maskSelect (posMask 97 300 [1] [1] [true]) [(1, 1)])
            (maskSelect (posMask 97 300 [1] [1] [true]) [(0, 0)])
            (maskSelect (posMask 97 300 [1] [1] [true]) [0])
            (maskSelect (posMask 97 300 [1] [1] [true]) [(1, 1)])
            (maskSelect (posMask 97 300 [1] [1] [true]) [0])
            (maskSelect (posMask 97 300 [1] [1] [true]) [0])
            (maskSelect (posMask 97 300 [1] [1] [true]) [0])).1 /
           ((updateLossNormalizer 100 ((posMask 97 300 [1] [1] [true]).count true) : ℚ) : ℝ),
         (ctr_giou_loss_1d ⟨1, 1, 1, 1, 1, 1, 1, 1⟩
            (maskSelect (posMask 97 300 [1] [1] [true]) [(1, 1)])
            (maskSelect (posMask 97 300 [1] [1] [true]) [(0, 0)])
            (maskSelect (posMask 97 300 [1] [1] [true]) [0])
            (maskSelect (posMask 97 300 [1] [1] [true]) [(1, 1)])
            (maskSelect (posMask 97 300 [1] [1] [true]) [0])
            (maskSelect (posMask 97 300 [1] [1] [true]) [0])
            (maskSelect (posMask 97 300 [1] [1] [true]) [0])).2⟩ :=
  loss_normalizer_discipline ⟨1, 1, 1, 1, 1, 1, 1, 1⟩ 97 300 100
    ⟨[[0]], [[0]], [(1, 1)], [(0, 0)], [0]⟩
    ⟨[1], [1], [(1, 1)], [0], [0], [0]⟩ [true] [[0]] [[0]] [true] (by decide)

end AVTAD
